import Mathlib

/-!
Shallow embedding of the go-rate-limiter decision engine
(src/internal/store/memory.go, src/internal/algorithms/sliding_window.go,
src/internal/handlers/rate_limit.go, src/cmd/server/main.go,
src/pkg/limiter/types.go) in Lean 4.

Modelling conventions:
* Instants (`time.Time`) are rationals: seconds since Go's zero time; the
  zero value `time.Time{}` is `0`.  Durations are rationals in seconds.
* `float64` arithmetic is modelled by exact rationals `ℚ`; none of the
  properties verified here depends on binary floating-point rounding.
* Go's conversion `int(x)` / `time.Duration(x)` of a float truncates the
  fractional part toward zero: `goTrunc` below.
* `t.Truncate(d)` rounds `t` down to a multiple of `d` since the zero
  time (and returns `t` unchanged when `d ≤ 0`): `timeTruncate` below.
* The memory store's two `sync.Map`s are modelled as total functions with
  the zero-value defaults: a key absent from `counters` is observationally
  a window map that reads `0` everywhere (`GetWindows` of an absent key
  returns the empty list and the algorithms' matching loops read absent
  timestamps as count `0`), and a key absent from `tokens` reads as
  `(0, time.Time{})` (memory.go `GetTokens` lines 96-107).  `Delete`
  therefore stores the defaults back.
* Counts only ever start at `0` and are incremented by `1`
  (memory.go `Increment`), so they are modelled as `ℕ` (no overflow is
  reachable in the claims below).
* Fallible operations return `Except String`; the memory store's Go
  methods all `return ..., nil`, which is embedded as always-`.ok`.
* Concurrency (mutexes, the background cleanup goroutine) is outside the
  sequential decides the claims quantify over and is not modelled.
-/

/-- Go conversion of a float to an integer: truncation toward zero. -/
def goTrunc (q : ℚ) : ℤ := if 0 ≤ q then ⌊q⌋ else ⌈q⌉

/-- Go `t.Truncate(d)`: round `t` down to a multiple of `d` since the zero
time; `t` unchanged when `d ≤ 0`. -/
def timeTruncate (t d : ℚ) : ℚ := if d ≤ 0 then t else (⌊t / d⌋ : ℚ) * d

/-- `limiter.LimitInfo` (pkg/limiter/types.go): decision metadata. -/
structure LimitInfo where
  Limit : ℤ
  Remaining : ℤ
  ResetAt : ℚ
  RetryAfter : Option ℚ
  deriving Repr, DecidableEq

/-- `limiter.Config` (pkg/limiter/types.go). -/
structure Config where
  Limit : ℤ
  Window : ℚ
  Burst : ℤ
  deriving Repr, DecidableEq

/-- `store.MemoryStore` (internal/store/memory.go): per-key window counters
and per-key token-bucket state, with absent entries reading as the Go zero
values (see module docstring). -/
structure MemoryStore where
  counters : String → ℚ → ℕ
  tokens : String → ℚ × ℚ

/-- A fresh store: no keys seen. -/
def MemoryStore.empty : MemoryStore where
  counters := fun _ _ => 0
  tokens := fun _ => (0, 0)

/-- memory.go `Increment` (lines 44-56): `wc.data[window]++`, returning the
new count; always succeeds. -/
def MemoryStore.Increment (ms : MemoryStore) (key : String) (window : ℚ) :
    Except String (ℕ × MemoryStore) :=
  let newCount := ms.counters key window + 1
  .ok (newCount,
    { ms with
      counters := fun k w =>
        if k = key then (if w = window then newCount else ms.counters k w)
        else ms.counters k w })

/-- memory.go `GetWindows` (lines 59-80): the counts of the windows of
`key` whose timestamp lies in `[f, t]`.  The Go method returns the list of
map entries in range; its callers read it through timestamp-equality
matching, so the observation is exactly this count function (absent
timestamps read as `0`). -/
def MemoryStore.GetWindows (ms : MemoryStore) (key : String) (f t : ℚ) :
    Except String (ℚ → ℕ) :=
  .ok (fun ts => if f ≤ ts ∧ ts ≤ t then ms.counters key ts else 0)

/-- memory.go `SetTokens` (lines 83-93): replace the bucket state of `key`;
always succeeds. -/
def MemoryStore.SetTokens (ms : MemoryStore) (key : String) (tokens : ℚ)
    (lastRefill : ℚ) : Except String MemoryStore :=
  .ok { ms with
        tokens := fun k => if k = key then (tokens, lastRefill) else ms.tokens k }

/-- memory.go `GetTokens` (lines 96-107): the bucket state of `key`, the
zero pair when absent; always succeeds (`err = nil` on both paths). -/
def MemoryStore.GetTokens (ms : MemoryStore) (key : String) :
    Except String (ℚ × ℚ) :=
  .ok (ms.tokens key)

/-- memory.go `Delete` (lines 110-114): drop both the window family and the
token family of `key` (which then read as the zero values again). -/
def MemoryStore.Delete (ms : MemoryStore) (key : String) :
    Except String MemoryStore :=
  .ok { counters := fun k => if k = key then (fun _ => 0) else ms.counters k
        tokens := fun k => if k = key then (0, 0) else ms.tokens k }

/-- memory.go `Close` (lines 117-119): no-op. -/
def MemoryStore.Close (_ : MemoryStore) : Except String Unit :=
  .ok ()

/-- `algorithms.FixedWindowCounter` (memory.go blob lines 251-256). -/
structure FixedWindowCounter where
  limit : ℤ
  window : ℚ
  deriving Repr, DecidableEq

/-- `NewFixedWindowCounter` (lines 259-265). -/
def NewFixedWindowCounter (config : Config) : FixedWindowCounter :=
  { limit := config.Limit, window := config.Window }

/-- `FixedWindowCounter.AllowN` (lines 273-327).  The store is threaded
explicitly; `now` is the injected clock reading. -/
def FixedWindowCounter.AllowN (fwc : FixedWindowCounter) (ms : MemoryStore)
    (now : ℚ) (key : String) (n : ℤ) :
    Except String (Bool × LimitInfo × MemoryStore) :=
  let currentWindow := timeTruncate now fwc.window
  match ms.GetWindows key currentWindow now with
  | .error e => .error ("failed to get windows: " ++ e)
  | .ok wins =>
    let currentCount : ℤ := (wins currentWindow : ℤ)
    let allowed : Bool := decide (currentCount + n ≤ fwc.limit)
    let finish : ℤ → MemoryStore → Bool × LimitInfo × MemoryStore :=
      fun currentCount ms =>
        let remaining := fwc.limit - currentCount
        let remaining := if remaining < 0 then 0 else remaining
        let resetAt := currentWindow + fwc.window
        (allowed,
         { Limit := fwc.limit, Remaining := remaining, ResetAt := resetAt,
           RetryAfter := if allowed then none else some (resetAt - now) },
         ms)
    if allowed then
      match ms.Increment key currentWindow with
      | .error e => .error ("failed to increment: " ++ e)
      | .ok (newCount, ms1) => .ok (finish (newCount : ℤ) ms1)
    else
      .ok (finish currentCount ms)

/-- `FixedWindowCounter.Reset` (lines 330-334). -/
def FixedWindowCounter.Reset (_ : FixedWindowCounter) (ms : MemoryStore)
    (key : String) : Except String MemoryStore :=
  ms.Delete key

/-- `algorithms.SlidingWindowCounter` (sliding_window.go lines 14-19). -/
structure SlidingWindowCounter where
  limit : ℤ
  window : ℚ
  deriving Repr, DecidableEq

/-- `NewSlidingWindowCounter` (lines 22-28). -/
def NewSlidingWindowCounter (config : Config) : SlidingWindowCounter :=
  { limit := config.Limit, window := config.Window }

/-- `SlidingWindowCounter.AllowN` (sliding_window.go lines 36-106). -/
def SlidingWindowCounter.AllowN (swc : SlidingWindowCounter) (ms : MemoryStore)
    (now : ℚ) (key : String) (n : ℤ) :
    Except String (Bool × LimitInfo × MemoryStore) :=
  let currentWindow := timeTruncate now swc.window
  let previousWindow := currentWindow - swc.window
  match ms.GetWindows key previousWindow now with
  | .error e => .error ("failed to get windows: " ++ e)
  | .ok wins =>
    let currentCount : ℕ := wins currentWindow
    let previousCount : ℕ := wins previousWindow
    let elapsedInCurrentWindow := now - currentWindow
    let weight : ℚ := 1 - elapsedInCurrentWindow / swc.window
    let weightedCount : ℚ := (currentCount : ℚ) + (previousCount : ℚ) * weight
    let allowed : Bool := decide (weightedCount + (n : ℚ) ≤ (swc.limit : ℚ))
    let finish : ℚ → MemoryStore → Bool × LimitInfo × MemoryStore :=
      fun weightedCount ms =>
        let remaining := goTrunc ((swc.limit : ℚ) - weightedCount)
        let remaining := if remaining < 0 then 0 else remaining
        let resetAt := currentWindow + swc.window
        (allowed,
         { Limit := swc.limit, Remaining := remaining, ResetAt := resetAt,
           RetryAfter := if allowed then none else some (resetAt - now) },
         ms)
    if allowed then
      match ms.Increment key currentWindow with
      | .error e => .error ("failed to increment: " ++ e)
      | .ok (newCount, ms1) =>
        .ok (finish ((newCount : ℚ) + (previousCount : ℚ) * weight) ms1)
    else
      .ok (finish weightedCount ms)

/-- `SlidingWindowCounter.Reset` (lines 109-113). -/
def SlidingWindowCounter.Reset (_ : SlidingWindowCounter) (ms : MemoryStore)
    (key : String) : Except String MemoryStore :=
  ms.Delete key

/-- `algorithms.TokenBucket` (sliding_window.go blob lines 127-133). -/
structure TokenBucket where
  capacity : ℤ
  refillRate : ℚ
  window : ℚ
  deriving Repr, DecidableEq

/-- `NewTokenBucket` (lines 136-151): capacity defaults to the limit when
burst is zero; refill rate is `limit / window` tokens per second. -/
def NewTokenBucket (config : Config) : TokenBucket :=
  let capacity := if config.Burst = 0 then config.Limit else config.Burst
  { capacity := capacity
    refillRate := (config.Limit : ℚ) / config.Window
    window := config.Window }

/-- `TokenBucket.AllowN` (sliding_window.go blob lines 159-215).  The error
branch of `GetTokens` initialises a full bucket; `elapsed` is *not* clamped
below zero; `remaining` is the float token count truncated to int;
`time.Duration(x) * time.Second` truncates `x` to a whole number of
seconds. -/
def TokenBucket.AllowN (tb : TokenBucket) (ms : MemoryStore) (now : ℚ)
    (key : String) (n : ℤ) :
    Except String (Bool × LimitInfo × MemoryStore) :=
  let st := match ms.GetTokens key with
    | .ok p => p
    | .error _ => ((tb.capacity : ℚ), now)
  let tokens0 := st.1
  let lastRefill := st.2
  let elapsed := now - lastRefill
  let tokens1 := tokens0 + elapsed * tb.refillRate
  let tokens2 := if (tb.capacity : ℚ) < tokens1 then (tb.capacity : ℚ) else tokens1
  let allowed : Bool := decide ((n : ℚ) ≤ tokens2)
  let tokens3 := if allowed then tokens2 - (n : ℚ) else tokens2
  let remaining := goTrunc tokens3
  match ms.SetTokens key tokens3 now with
  | .error e => .error ("failed to update tokens: " ++ e)
  | .ok ms1 =>
    let tokensNeeded := (tb.capacity : ℚ) - tokens3
    let resetAt := now + (goTrunc (tokensNeeded / tb.refillRate) : ℚ)
    .ok (allowed,
      { Limit := tb.capacity, Remaining := remaining, ResetAt := resetAt,
        RetryAfter :=
          if allowed then none
          else some (goTrunc (((n : ℚ) - tokens3) / tb.refillRate) : ℚ) },
      ms1)

/-- `TokenBucket.Reset` (lines 218-222). -/
def TokenBucket.Reset (_ : TokenBucket) (ms : MemoryStore) (key : String) :
    Except String MemoryStore :=
  ms.Delete key

/-- The allow/deny bit of a decide result (`false` on the unreachable error
path). -/
def allowedOf (r : Except String (Bool × LimitInfo × MemoryStore)) : Bool :=
  match r with
  | .ok (a, _, _) => a
  | .error _ => false

/-- The `LimitInfo` of a decide result (zeros on the unreachable error
path). -/
def infoOf (r : Except String (Bool × LimitInfo × MemoryStore)) : LimitInfo :=
  match r with
  | .ok (_, i, _) => i
  | .error _ => { Limit := 0, Remaining := 0, ResetAt := 0, RetryAfter := none }

/-- The store a decide result leaves behind (the input store on the
unreachable error path). -/
def storeAfter (r : Except String (Bool × LimitInfo × MemoryStore))
    (ms : MemoryStore) : MemoryStore :=
  match r with
  | .ok (_, _, ms1) => ms1
  | .error _ => ms

/-- `k` consecutive unit decides of a fixed window counter at one instant. -/
def runFixed (fwc : FixedWindowCounter) (now : ℚ) (key : String) :
    ℕ → MemoryStore → MemoryStore
  | 0, ms => ms
  | k + 1, ms =>
    let ms1 := runFixed fwc now key k ms
    storeAfter (fwc.AllowN ms1 now key 1) ms1

/-- `k` consecutive unit decides of a sliding window counter at one
instant. -/
def runSliding (swc : SlidingWindowCounter) (now : ℚ) (key : String) :
    ℕ → MemoryStore → MemoryStore
  | 0, ms => ms
  | k + 1, ms =>
    let ms1 := runSliding swc now key k ms
    storeAfter (swc.AllowN ms1 now key 1) ms1

/-- `k` consecutive unit decides of a token bucket at one instant. -/
def runBucket (tb : TokenBucket) (now : ℚ) (key : String) :
    ℕ → MemoryStore → MemoryStore
  | 0, ms => ms
  | k + 1, ms =>
    let ms1 := runBucket tb now key k ms
    storeAfter (tb.AllowN ms1 now key 1) ms1

/-- The store left behind by a `Reset` (= store `Delete`) call; the memory
store's `Delete` always succeeds, so the fallback is never used. -/
def resetStore (r : Except String MemoryStore) (fallback : MemoryStore) :
    MemoryStore :=
  match r with
  | .ok m => m
  | .error _ => fallback

/-- `handlers.CheckRequest` (rate_limit.go lines 31-36). -/
structure CheckRequest where
  Resource : String
  Identifier : String
  Algorithm : String
  Count : ℤ
  deriving Repr, DecidableEq

/-- `RateLimitHandler.Check` (rate_limit.go lines 48-117) over the limiter
table built in cmd/server/main.go (lines 62-81): the three algorithms are
constructed from the one default `Config` and share one store.  Returns the
HTTP status and the store left behind.  Binding validation (`ShouldBindJSON`
with `binding:"required"`) rejects empty `Resource`/`Identifier` with 400;
a zero `Count` defaults to 1; an unknown algorithm name gives 400; the
decide's error path gives 500; otherwise 200 when allowed, 429 when
denied.  Note the handler has no negative-count check. -/
def RateLimitHandler.Check (cfg : Config) (defaultAlgorithm : String)
    (ms : MemoryStore) (now : ℚ) (req : CheckRequest) : ℕ × MemoryStore :=
  if req.Resource = "" ∨ req.Identifier = "" then (400, ms)
  else
    let count := if req.Count = 0 then 1 else req.Count
    let algorithm := if req.Algorithm = "" then defaultAlgorithm else req.Algorithm
    let key := req.Identifier ++ ":" ++ req.Resource
    let result : Option (Except String (Bool × LimitInfo × MemoryStore)) :=
      if algorithm = "token_bucket" then
        some ((NewTokenBucket cfg).AllowN ms now key count)
      else if algorithm = "sliding_window" then
        some ((NewSlidingWindowCounter cfg).AllowN ms now key count)
      else if algorithm = "fixed_window" then
        some ((NewFixedWindowCounter cfg).AllowN ms now key count)
      else none
    match result with
    | none => (400, ms)
    | some (.error _) => (500, ms)
    | some (.ok (allowed, _, ms1)) => (if allowed then (200 : ℕ) else 429, ms1)

/-! ### Basic lemmas about window alignment -/

theorem timeTruncate_le (t : ℚ) {d : ℚ} (hd : 0 < d) : timeTruncate t d ≤ t := by
  unfold timeTruncate
  rw [if_neg (not_le.mpr hd)]
  calc (⌊t / d⌋ : ℚ) * d ≤ (t / d) * d :=
        mul_le_mul_of_nonneg_right (Int.floor_le _) hd.le
    _ = t := div_mul_cancel₀ t hd.ne'

theorem lt_timeTruncate_add (t : ℚ) {d : ℚ} (hd : 0 < d) :
    t < timeTruncate t d + d := by
  unfold timeTruncate
  rw [if_neg (not_le.mpr hd)]
  have h := Int.lt_floor_add_one (t / d)
  calc t = (t / d) * d := (div_mul_cancel₀ t hd.ne').symm
    _ < ((⌊t / d⌋ : ℚ) + 1) * d := by
        exact mul_lt_mul_of_pos_right h hd
    _ = (⌊t / d⌋ : ℚ) * d + d := by ring

/-! ### Characterization of a single decide -/

theorem fixedWindow_allowN_eq (fwc : FixedWindowCounter) (ms : MemoryStore)
    (now : ℚ) (key : String) (n : ℤ) (hw : 0 < fwc.window) :
    fwc.AllowN ms now key n =
      (let cw := timeTruncate now fwc.window
       let c : ℤ := (ms.counters key cw : ℤ)
       let allowed : Bool := decide (c + n ≤ fwc.limit)
       let c1 : ℤ := if allowed then c + 1 else c
       .ok (allowed,
        { Limit := fwc.limit,
          Remaining := if fwc.limit - c1 < 0 then 0 else fwc.limit - c1,
          ResetAt := cw + fwc.window,
          RetryAfter := if allowed then none else some (cw + fwc.window - now) },
        if allowed then
          { ms with counters := fun k w =>
              if k = key then
                (if w = cw then ms.counters key cw + 1 else ms.counters k w)
              else ms.counters k w }
        else ms)) := by
  have htr : timeTruncate now fwc.window ≤ now := timeTruncate_le now hw
  unfold FixedWindowCounter.AllowN MemoryStore.GetWindows MemoryStore.Increment
  dsimp only
  simp only [le_refl, htr, and_self, if_true]
  by_cases hA : ((ms.counters key (timeTruncate now fwc.window) : ℤ) + n ≤ fwc.limit)
  · simp [hA]
  · simp [hA]

theorem slidingWindow_allowN_eq (swc : SlidingWindowCounter) (ms : MemoryStore)
    (now : ℚ) (key : String) (n : ℤ) (hw : 0 < swc.window) :
    swc.AllowN ms now key n =
      (let cw := timeTruncate now swc.window
       let pw := cw - swc.window
       let cc : ℕ := ms.counters key cw
       let pc : ℕ := ms.counters key pw
       let weight : ℚ := 1 - (now - cw) / swc.window
       let wc : ℚ := (cc : ℚ) + (pc : ℚ) * weight
       let allowed : Bool := decide (wc + (n : ℚ) ≤ (swc.limit : ℚ))
       let wc1 : ℚ := if allowed then ((cc : ℚ) + 1) + (pc : ℚ) * weight else wc
       let rem := goTrunc ((swc.limit : ℚ) - wc1)
       .ok (allowed,
        { Limit := swc.limit,
          Remaining := if rem < 0 then 0 else rem,
          ResetAt := cw + swc.window,
          RetryAfter := if allowed then none else some (cw + swc.window - now) },
        if allowed then
          { ms with counters := fun k w =>
              if k = key then
                (if w = cw then ms.counters key cw + 1 else ms.counters k w)
              else ms.counters k w }
        else ms)) := by
  have htr : timeTruncate now swc.window ≤ now := timeTruncate_le now hw
  have hpc : timeTruncate now swc.window - swc.window ≤ timeTruncate now swc.window :=
    sub_le_self _ hw.le
  have hpn : timeTruncate now swc.window - swc.window ≤ now := le_trans hpc htr
  unfold SlidingWindowCounter.AllowN MemoryStore.GetWindows MemoryStore.Increment
  dsimp only
  simp only [le_refl, htr, hpc, hpn, and_self, true_and, and_true, if_true]
  by_cases hA : ((ms.counters key (timeTruncate now swc.window) : ℚ) +
      (ms.counters key (timeTruncate now swc.window - swc.window) : ℚ) *
        (1 - (now - timeTruncate now swc.window) / swc.window) + (n : ℚ) ≤ (swc.limit : ℚ))
  · simp [hA]
  · simp [hA]

theorem tokenBucket_allowN_eq (tb : TokenBucket) (ms : MemoryStore)
    (now : ℚ) (key : String) (n : ℤ) :
    tb.AllowN ms now key n =
      (let t0 := (ms.tokens key).1
       let lr := (ms.tokens key).2
       let t1 := t0 + (now - lr) * tb.refillRate
       let t2 := if (tb.capacity : ℚ) < t1 then (tb.capacity : ℚ) else t1
       let allowed : Bool := decide ((n : ℚ) ≤ t2)
       let t3 := if allowed then t2 - (n : ℚ) else t2
       .ok (allowed,
        { Limit := tb.capacity,
          Remaining := goTrunc t3,
          ResetAt := now + (goTrunc (((tb.capacity : ℚ) - t3) / tb.refillRate) : ℚ),
          RetryAfter :=
            if allowed then none
            else some (goTrunc (((n : ℚ) - t3) / tb.refillRate) : ℚ) },
        { ms with tokens := fun k => if k = key then (t3, now) else ms.tokens k })) := by
  unfold TokenBucket.AllowN MemoryStore.GetTokens MemoryStore.SetTokens
  rfl

/-! ### Arithmetic helpers -/

theorem goTrunc_nonneg {q : ℚ} (h : 0 ≤ q) : 0 ≤ goTrunc q := by
  unfold goTrunc
  rw [if_pos h]
  exact Int.le_floor.mpr (by exact_mod_cast h)

theorem goTrunc_le_intCast {q : ℚ} {m : ℤ} (hq : q ≤ (m : ℚ)) (hm : 0 ≤ m) :
    goTrunc q ≤ m := by
  unfold goTrunc
  split
  · calc ⌊q⌋ ≤ ⌊(m : ℚ)⌋ := Int.floor_mono hq
      _ = m := Int.floor_intCast m
  · next h =>
    have hq0 : q ≤ (0 : ℚ) := le_of_lt (lt_of_not_le h)
    calc ⌈q⌉ ≤ ⌈(0 : ℚ)⌉ := Int.ceil_mono hq0
      _ = 0 := by norm_num
      _ ≤ m := hm

theorem timeTruncate_sub_nonneg (t : ℚ) {d : ℚ} (hd : 0 < d) :
    0 ≤ t - timeTruncate t d :=
  sub_nonneg.mpr (timeTruncate_le t hd)

theorem timeTruncate_sub_lt (t : ℚ) {d : ℚ} (hd : 0 < d) :
    t - timeTruncate t d < d := by
  have := lt_timeTruncate_add t hd
  linarith

theorem slidingWeight_nonneg (t : ℚ) {d : ℚ} (hd : 0 < d) :
    0 ≤ 1 - (t - timeTruncate t d) / d := by
  have h1 : (t - timeTruncate t d) / d < 1 :=
    (div_lt_one hd).mpr (timeTruncate_sub_lt t hd)
  linarith

/-! ### Frame and congruence consequences of the characterizations -/

theorem fixedWindow_allowN_tokens (fwc : FixedWindowCounter) (ms : MemoryStore)
    (now : ℚ) (key : String) (n : ℤ) (hw : 0 < fwc.window) :
    (storeAfter (fwc.AllowN ms now key n) ms).tokens = ms.tokens := by
  rw [fixedWindow_allowN_eq fwc ms now key n hw]
  dsimp only [storeAfter]
  split <;> rfl

theorem slidingWindow_allowN_tokens (swc : SlidingWindowCounter) (ms : MemoryStore)
    (now : ℚ) (key : String) (n : ℤ) (hw : 0 < swc.window) :
    (storeAfter (swc.AllowN ms now key n) ms).tokens = ms.tokens := by
  rw [slidingWindow_allowN_eq swc ms now key n hw]
  dsimp only [storeAfter]
  split <;> rfl

theorem tokenBucket_allowN_counters (tb : TokenBucket) (ms : MemoryStore)
    (now : ℚ) (key : String) (n : ℤ) :
    (storeAfter (tb.AllowN ms now key n) ms).counters = ms.counters := by
  rw [tokenBucket_allowN_eq tb ms now key n]
  rfl

theorem fixedWindow_allowN_congr (fwc : FixedWindowCounter) {ms1 ms2 : MemoryStore}
    (now : ℚ) (key : String) (n : ℤ) (hw : 0 < fwc.window)
    (h : ms1.counters key = ms2.counters key) :
    allowedOf (fwc.AllowN ms1 now key n) = allowedOf (fwc.AllowN ms2 now key n) ∧
    infoOf (fwc.AllowN ms1 now key n) = infoOf (fwc.AllowN ms2 now key n) := by
  rw [fixedWindow_allowN_eq fwc ms1 now key n hw, fixedWindow_allowN_eq fwc ms2 now key n hw]
  dsimp only [allowedOf, infoOf]
  rw [h]
  exact ⟨rfl, rfl⟩

theorem slidingWindow_allowN_congr (swc : SlidingWindowCounter) {ms1 ms2 : MemoryStore}
    (now : ℚ) (key : String) (n : ℤ) (hw : 0 < swc.window)
    (h : ms1.counters key = ms2.counters key) :
    allowedOf (swc.AllowN ms1 now key n) = allowedOf (swc.AllowN ms2 now key n) ∧
    infoOf (swc.AllowN ms1 now key n) = infoOf (swc.AllowN ms2 now key n) := by
  rw [slidingWindow_allowN_eq swc ms1 now key n hw, slidingWindow_allowN_eq swc ms2 now key n hw]
  dsimp only [allowedOf, infoOf]
  rw [h]
  exact ⟨rfl, rfl⟩

theorem tokenBucket_allowN_congr (tb : TokenBucket) {ms1 ms2 : MemoryStore}
    (now : ℚ) (key : String) (n : ℤ)
    (h : ms1.tokens key = ms2.tokens key) :
    allowedOf (tb.AllowN ms1 now key n) = allowedOf (tb.AllowN ms2 now key n) ∧
    infoOf (tb.AllowN ms1 now key n) = infoOf (tb.AllowN ms2 now key n) := by
  rw [tokenBucket_allowN_eq tb ms1 now key n, tokenBucket_allowN_eq tb ms2 now key n]
  dsimp only [allowedOf, infoOf]
  rw [h]
  exact ⟨rfl, rfl⟩

/-! ### State after `k` cold-start unit decides -/

theorem runFixed_count (fwc : FixedWindowCounter) (now : ℚ) (key : String)
    (hw : 0 < fwc.window) :
    ∀ k : ℕ, (k : ℤ) ≤ fwc.limit →
      (runFixed fwc now key k MemoryStore.empty).counters key
        (timeTruncate now fwc.window) = k := by
  intro k
  induction k with
  | zero => intro _; rfl
  | succ k ih =>
    intro hk
    have hk1 : (k : ℤ) ≤ fwc.limit := by push_cast at hk ⊢; omega
    have hc := ih hk1
    have hallow : (k : ℤ) + 1 ≤ fwc.limit := by push_cast at hk ⊢; omega
    show (storeAfter
      (fwc.AllowN (runFixed fwc now key k MemoryStore.empty) now key 1)
      (runFixed fwc now key k MemoryStore.empty)).counters
        key (timeTruncate now fwc.window) = k + 1
    rw [fixedWindow_allowN_eq _ _ _ _ _ hw]
    dsimp only [storeAfter]
    simp [hc, hallow]

theorem runSliding_counts (swc : SlidingWindowCounter) (now : ℚ) (key : String)
    (hw : 0 < swc.window) :
    ∀ k : ℕ, (k : ℤ) ≤ swc.limit →
      (runSliding swc now key k MemoryStore.empty).counters key
        (timeTruncate now swc.window) = k ∧
      (runSliding swc now key k MemoryStore.empty).counters key
        (timeTruncate now swc.window - swc.window) = 0 := by
  have hne : timeTruncate now swc.window - swc.window ≠ timeTruncate now swc.window :=
    fun h => hw.ne' (sub_eq_self.mp h)
  intro k
  induction k with
  | zero => intro _; exact ⟨rfl, rfl⟩
  | succ k ih =>
    intro hk
    have hk1 : (k : ℤ) ≤ swc.limit := by push_cast at hk ⊢; omega
    obtain ⟨hc, hp⟩ := ih hk1
    have hQ : (k : ℚ) + 1 ≤ (swc.limit : ℚ) := by exact_mod_cast hk
    constructor
    · show (storeAfter
        (swc.AllowN (runSliding swc now key k MemoryStore.empty) now key 1)
        (runSliding swc now key k MemoryStore.empty)).counters
          key (timeTruncate now swc.window) = k + 1
      rw [slidingWindow_allowN_eq _ _ _ _ _ hw]
      dsimp only [storeAfter]
      simp [hc, hp, hQ]
    · show (storeAfter
        (swc.AllowN (runSliding swc now key k MemoryStore.empty) now key 1)
        (runSliding swc now key k MemoryStore.empty)).counters
          key (timeTruncate now swc.window - swc.window) = 0
      rw [slidingWindow_allowN_eq _ _ _ _ _ hw]
      dsimp only [storeAfter]
      simp [hc, hp, hQ, hne]

theorem runBucket_tokens (tb : TokenBucket) (now : ℚ) (key : String)
    (hcap : 1 ≤ tb.capacity)
    (hfill : (tb.capacity : ℚ) ≤ now * tb.refillRate) :
    ∀ k : ℕ, (k : ℤ) ≤ tb.capacity →
      (runBucket tb now key k MemoryStore.empty).tokens key =
        (if k = 0 then ((0 : ℚ), (0 : ℚ))
         else ((tb.capacity : ℚ) - (k : ℚ), now)) := by
  intro k
  induction k with
  | zero => intro _; rfl
  | succ k ih =>
    intro hk
    have hk1 : (k : ℤ) ≤ tb.capacity := by push_cast at hk ⊢; omega
    have hst := ih hk1
    rw [if_neg (Nat.succ_ne_zero k)]
    show (storeAfter
      (tb.AllowN (runBucket tb now key k MemoryStore.empty) now key 1)
      (runBucket tb now key k MemoryStore.empty)).tokens key
        = ((tb.capacity : ℚ) - ((k + 1 : ℕ) : ℚ), now)
    rw [tokenBucket_allowN_eq]
    dsimp only [storeAfter]
    by_cases hk0 : k = 0
    · subst hk0
      have hst' : (runBucket tb now key 0 MemoryStore.empty).tokens key
          = ((0 : ℚ), (0 : ℚ)) := by simpa using hst
      rw [hst']
      dsimp only
      have ht2 : (if (tb.capacity : ℚ) < (0 : ℚ) + (now - 0) * tb.refillRate
          then (tb.capacity : ℚ) else (0 : ℚ) + (now - 0) * tb.refillRate)
          = (tb.capacity : ℚ) := by
        rcases eq_or_lt_of_le hfill with h | h
        · rw [if_neg (by rw [zero_add, sub_zero]; exact not_lt.mpr h.ge), zero_add,
            sub_zero, ← h]
        · rw [if_pos (by rw [zero_add, sub_zero]; exact h)]
      rw [ht2]
      have hallow : (1 : ℚ) ≤ (tb.capacity : ℚ) := by exact_mod_cast hcap
      simp [hallow]
    · have hst' : (runBucket tb now key k MemoryStore.empty).tokens key
          = ((tb.capacity : ℚ) - (k : ℚ), now) := by rw [hst, if_neg hk0]
      rw [hst']
      dsimp only
      have ht1 : (tb.capacity : ℚ) - (k : ℚ) + (now - now) * tb.refillRate
          = (tb.capacity : ℚ) - (k : ℚ) := by ring
      rw [ht1]
      have ht2 : ¬ ((tb.capacity : ℚ) < (tb.capacity : ℚ) - (k : ℚ)) := by
        have hknn : (0 : ℚ) ≤ (k : ℚ) := by positivity
        linarith
      rw [if_neg ht2]
      have hallow : (1 : ℚ) ≤ (tb.capacity : ℚ) - (k : ℚ) := by
        have hcast : ((k : ℚ) + 1) ≤ (tb.capacity : ℚ) := by exact_mod_cast hk
        linarith
      simp [hallow]
      ring

/-- C4 (amended): P1 — from a cold key, `limit` (windows) resp. `capacity`
(bucket) consecutive unit decides at one instant inside one window all
allow, and the next unit decide denies.  For the window algorithms this is
unconditional; for the bucket it holds provided the cold refill fills the
bucket (`capacity ≤ now · rate`).  That proviso is needed: the code reads
an absent key as `(0, zero instant)` — the spec's `(capacity, now)` cold
initialization sits on the unreachable `GetTokens` error path — so a cold
bucket holds only `min(capacity, now · rate)` tokens, and the original
unconditional claim fails (see the counterexample). -/
theorem claimC4_cold_budget (cfg : Config) (now : ℚ) (key : String)
    (hlim : 1 ≤ cfg.Limit) (hwin : 0 < cfg.Window)
    (hcap : 1 ≤ (NewTokenBucket cfg).capacity)
    (hfill : ((NewTokenBucket cfg).capacity : ℚ) ≤ now * (NewTokenBucket cfg).refillRate) :
    (∀ k : ℕ, (k : ℤ) < cfg.Limit →
      allowedOf ((NewFixedWindowCounter cfg).AllowN
        (runFixed (NewFixedWindowCounter cfg) now key k MemoryStore.empty)
        now key 1) = true) ∧
    allowedOf ((NewFixedWindowCounter cfg).AllowN
      (runFixed (NewFixedWindowCounter cfg) now key cfg.Limit.toNat MemoryStore.empty)
      now key 1) = false ∧
    (∀ k : ℕ, (k : ℤ) < cfg.Limit →
      allowedOf ((NewSlidingWindowCounter cfg).AllowN
        (runSliding (NewSlidingWindowCounter cfg) now key k MemoryStore.empty)
        now key 1) = true) ∧
    allowedOf ((NewSlidingWindowCounter cfg).AllowN
      (runSliding (NewSlidingWindowCounter cfg) now key cfg.Limit.toNat MemoryStore.empty)
      now key 1) = false ∧
    (∀ k : ℕ, (k : ℤ) < (NewTokenBucket cfg).capacity →
      allowedOf ((NewTokenBucket cfg).AllowN
        (runBucket (NewTokenBucket cfg) now key k MemoryStore.empty)
        now key 1) = true) ∧
    allowedOf ((NewTokenBucket cfg).AllowN
      (runBucket (NewTokenBucket cfg) now key (NewTokenBucket cfg).capacity.toNat
        MemoryStore.empty) now key 1) = false := by
  have hwF : 0 < (NewFixedWindowCounter cfg).window := hwin
  have hwS : 0 < (NewSlidingWindowCounter cfg).window := hwin
  refine ⟨?_, ?_, ?_, ?_, ?_, ?_⟩
  · -- fixed window: the first `limit` unit decides allow
    intro k hk
    have hkle : (k : ℤ) ≤ (NewFixedWindowCounter cfg).limit := le_of_lt hk
    rw [fixedWindow_allowN_eq _ _ _ _ _ hwF]
    dsimp only [allowedOf]
    rw [runFixed_count _ _ _ hwF k hkle]
    simp only [decide_eq_true_eq]
    show (k : ℤ) + 1 ≤ cfg.Limit
    omega
  · -- fixed window: the next decide denies
    have hkle : ((cfg.Limit.toNat : ℕ) : ℤ) ≤ (NewFixedWindowCounter cfg).limit := by
      show ((cfg.Limit.toNat : ℕ) : ℤ) ≤ cfg.Limit
      omega
    rw [fixedWindow_allowN_eq _ _ _ _ _ hwF]
    dsimp only [allowedOf]
    rw [runFixed_count _ _ _ hwF cfg.Limit.toNat hkle]
    simp only [decide_eq_false_iff_not]
    show ¬ ((cfg.Limit.toNat : ℤ) + 1 ≤ cfg.Limit)
    omega
  · -- sliding window: the first `limit` unit decides allow
    intro k hk
    have hkle : (k : ℤ) ≤ (NewSlidingWindowCounter cfg).limit := le_of_lt hk
    obtain ⟨hc, hp⟩ := runSliding_counts _ now key hwS k hkle
    rw [slidingWindow_allowN_eq _ _ _ _ _ hwS]
    dsimp only [allowedOf]
    rw [hc, hp]
    simp only [Nat.cast_zero, zero_mul, add_zero, Int.cast_one, decide_eq_true_eq]
    have hkq : (k : ℚ) + 1 ≤ (cfg.Limit : ℚ) := by
      have : (k : ℤ) + 1 ≤ cfg.Limit := by omega
      exact_mod_cast this
    exact hkq
  · -- sliding window: the next decide denies
    have hkle : ((cfg.Limit.toNat : ℕ) : ℤ) ≤ (NewSlidingWindowCounter cfg).limit := by
      show ((cfg.Limit.toNat : ℕ) : ℤ) ≤ cfg.Limit
      omega
    obtain ⟨hc, hp⟩ := runSliding_counts _ now key hwS cfg.Limit.toNat hkle
    rw [slidingWindow_allowN_eq _ _ _ _ _ hwS]
    dsimp only [allowedOf]
    rw [hc, hp]
    simp only [Nat.cast_zero, zero_mul, add_zero, Int.cast_one, decide_eq_false_iff_not]
    intro habs
    have hq : ((cfg.Limit.toNat : ℕ) : ℚ) = (cfg.Limit : ℚ) := by
      have : ((cfg.Limit.toNat : ℕ) : ℤ) = cfg.Limit := by omega
      exact_mod_cast this
    rw [hq] at habs
    have hLS : (NewSlidingWindowCounter cfg).limit = cfg.Limit := rfl
    rw [hLS] at habs
    linarith
  · -- bucket: the first `capacity` unit decides allow
    intro k hk
    have hkle : (k : ℤ) ≤ (NewTokenBucket cfg).capacity := le_of_lt hk
    rw [tokenBucket_allowN_eq]
    dsimp only [allowedOf]
    rw [runBucket_tokens _ _ _ hcap hfill k hkle]
    by_cases hk0 : k = 0
    · subst hk0
      rw [if_pos rfl]
      dsimp only
      have ht2 : (if ((NewTokenBucket cfg).capacity : ℚ) <
          (0 : ℚ) + (now - 0) * (NewTokenBucket cfg).refillRate
          then ((NewTokenBucket cfg).capacity : ℚ)
          else (0 : ℚ) + (now - 0) * (NewTokenBucket cfg).refillRate)
          = ((NewTokenBucket cfg).capacity : ℚ) := by
        rcases eq_or_lt_of_le hfill with h | h
        · rw [if_neg (by rw [zero_add, sub_zero]; exact not_lt.mpr h.ge), zero_add,
            sub_zero, ← h]
        · rw [if_pos (by rw [zero_add, sub_zero]; exact h)]
      rw [ht2]
      have hallow : (1 : ℚ) ≤ ((NewTokenBucket cfg).capacity : ℚ) := by
        exact_mod_cast hcap
      simp [hallow]
    · rw [if_neg hk0]
      dsimp only
      have ht1 : ((NewTokenBucket cfg).capacity : ℚ) - (k : ℚ) +
          (now - now) * (NewTokenBucket cfg).refillRate
          = ((NewTokenBucket cfg).capacity : ℚ) - (k : ℚ) := by ring
      rw [ht1]
      have ht2 : ¬ (((NewTokenBucket cfg).capacity : ℚ) <
          ((NewTokenBucket cfg).capacity : ℚ) - (k : ℚ)) := by
        have hknn : (0 : ℚ) ≤ (k : ℚ) := by positivity
        linarith
      rw [if_neg ht2]
      have hallow : (1 : ℚ) ≤ ((NewTokenBucket cfg).capacity : ℚ) - (k : ℚ) := by
        have : ((k : ℤ) : ℚ) + 1 ≤ ((NewTokenBucket cfg).capacity : ℚ) := by
          exact_mod_cast hk
        push_cast at this
        linarith
      simp [hallow]
  · -- bucket: the next decide denies
    have hkle : (((NewTokenBucket cfg).capacity.toNat : ℕ) : ℤ) ≤
        (NewTokenBucket cfg).capacity := by omega
    have hk0 : (NewTokenBucket cfg).capacity.toNat ≠ 0 := by omega
    rw [tokenBucket_allowN_eq]
    dsimp only [allowedOf]
    rw [runBucket_tokens _ _ _ hcap hfill _ hkle, if_neg hk0]
    dsimp only
    have hq : (((NewTokenBucket cfg).capacity.toNat : ℕ) : ℚ) =
        ((NewTokenBucket cfg).capacity : ℚ) := by
      have : (((NewTokenBucket cfg).capacity.toNat : ℕ) : ℤ) =
          (NewTokenBucket cfg).capacity := by omega
      exact_mod_cast this
    rw [hq]
    have ht1 : ((NewTokenBucket cfg).capacity : ℚ) -
        ((NewTokenBucket cfg).capacity : ℚ) +
        (now - now) * (NewTokenBucket cfg).refillRate = (0 : ℚ) := by ring
    rw [ht1]
    have ht2 : ¬ (((NewTokenBucket cfg).capacity : ℚ) < (0 : ℚ)) := by
      have : (0 : ℚ) ≤ ((NewTokenBucket cfg).capacity : ℚ) := by
        exact_mod_cast le_trans (by norm_num) hcap
      linarith
    rw [if_neg ht2]
    have hallow : ¬ (((1 : ℤ) : ℚ) ≤ (0 : ℚ)) := by norm_num
    simp [hallow]

/-- C4 witness: the cold-budget property instantiated at
`{limit = 3, window = 1 s}`, `now = 1000 s`, key `k`. -/
theorem claimC4_cold_budget_witness :
    ((1 : ℤ) ≤ (3 : ℤ)) ∧ ((0 : ℚ) < 1) ∧
    (1 ≤ (NewTokenBucket { Limit := 3, Window := 1, Burst := 0 }).capacity) ∧
    (((NewTokenBucket { Limit := 3, Window := 1, Burst := 0 }).capacity : ℚ) ≤
      1000 * (NewTokenBucket { Limit := 3, Window := 1, Burst := 0 }).refillRate) ∧
    ((∀ k : ℕ, (k : ℤ) < (3 : ℤ) →
      allowedOf ((NewFixedWindowCounter { Limit := 3, Window := 1, Burst := 0 }).AllowN
        (runFixed (NewFixedWindowCounter { Limit := 3, Window := 1, Burst := 0 })
          1000 "k" k MemoryStore.empty) 1000 "k" 1) = true) ∧
    allowedOf ((NewFixedWindowCounter { Limit := 3, Window := 1, Burst := 0 }).AllowN
      (runFixed (NewFixedWindowCounter { Limit := 3, Window := 1, Burst := 0 })
        1000 "k" (3 : ℤ).toNat MemoryStore.empty) 1000 "k" 1) = false ∧
    (∀ k : ℕ, (k : ℤ) < (3 : ℤ) →
      allowedOf ((NewSlidingWindowCounter { Limit := 3, Window := 1, Burst := 0 }).AllowN
        (runSliding (NewSlidingWindowCounter { Limit := 3, Window := 1, Burst := 0 })
          1000 "k" k MemoryStore.empty) 1000 "k" 1) = true) ∧
    allowedOf ((NewSlidingWindowCounter { Limit := 3, Window := 1, Burst := 0 }).AllowN
      (runSliding (NewSlidingWindowCounter { Limit := 3, Window := 1, Burst := 0 })
        1000 "k" (3 : ℤ).toNat MemoryStore.empty) 1000 "k" 1) = false ∧
    (∀ k : ℕ, (k : ℤ) < (NewTokenBucket { Limit := 3, Window := 1, Burst := 0 }).capacity →
      allowedOf ((NewTokenBucket { Limit := 3, Window := 1, Burst := 0 }).AllowN
        (runBucket (NewTokenBucket { Limit := 3, Window := 1, Burst := 0 })
          1000 "k" k MemoryStore.empty) 1000 "k" 1) = true) ∧
    allowedOf ((NewTokenBucket { Limit := 3, Window := 1, Burst := 0 }).AllowN
      (runBucket (NewTokenBucket { Limit := 3, Window := 1, Burst := 0 })
        1000 "k" (NewTokenBucket { Limit := 3, Window := 1, Burst := 0 }).capacity.toNat
        MemoryStore.empty) 1000 "k" 1) = false) :=
  ⟨by norm_num, by norm_num, by norm_num [NewTokenBucket],
   by norm_num [NewTokenBucket],
   claimC4_cold_budget { Limit := 3, Window := 1, Burst := 0 } 1000 "k"
     (by norm_num) (by norm_num) (by norm_num [NewTokenBucket])
     (by norm_num [NewTokenBucket])⟩

/-- Weighted counts are nonnegative. -/
theorem weighted_nonneg {a b w : ℚ} (ha : 0 ≤ a) (hb : 0 ≤ b) (hw : 0 ≤ w) :
    0 ≤ a + b * w :=
  add_nonneg ha (mul_nonneg hb hw)

/-- Bounds for the fixed-window clamp `max(0, m - c1)`. -/
theorem int_clamp_bounds (m c1 : ℤ) (hm : 0 ≤ m) (hc : 0 ≤ c1) :
    0 ≤ (if m - c1 < 0 then 0 else m - c1) ∧
    (if m - c1 < 0 then 0 else m - c1) ≤ m := by
  constructor <;> split <;> omega

/-- Bounds for the clamped truncation `max(0, int(m - q))` used by the
sliding window. -/
theorem goTrunc_clamp_bounds (m : ℤ) (q : ℚ) (hm : 0 ≤ m) (hq : 0 ≤ q) :
    0 ≤ (if goTrunc ((m : ℚ) - q) < 0 then 0 else goTrunc ((m : ℚ) - q)) ∧
    (if goTrunc ((m : ℚ) - q) < 0 then 0 else goTrunc ((m : ℚ) - q)) ≤ m := by
  constructor
  · split <;> omega
  · split
    · exact hm
    · exact goTrunc_le_intCast (by linarith) hm

/-- The recomputed weighted count of the sliding window is nonnegative. -/
theorem ite_weighted_nonneg {c : Prop} [Decidable c] {a b w : ℚ}
    (ha : 0 ≤ a) (hb : 0 ≤ b) (hw : 0 ≤ w) :
    0 ≤ if c then a + 1 + b * w else a + b * w := by
  have hbw : 0 ≤ b * w := mul_nonneg hb hw
  split
  · linarith
  · linarith

/-- The post-consumption token count of the bucket stays in `[0, cap]` when
the refilled count is nonnegative and the cost is nonnegative. -/
theorem ite_consume_bounds {cap t1 nq : ℚ} (hcap : 0 ≤ cap) (ht1 : 0 ≤ t1)
    (hn : 0 ≤ nq) :
    (0 ≤ (if decide (nq ≤ (if cap < t1 then cap else t1)) = true
          then (if cap < t1 then cap else t1) - nq
          else (if cap < t1 then cap else t1))) ∧
    ((if decide (nq ≤ (if cap < t1 then cap else t1)) = true
          then (if cap < t1 then cap else t1) - nq
          else (if cap < t1 then cap else t1)) ≤ cap) := by
  have h2 : 0 ≤ (if cap < t1 then cap else t1) := by
    split
    · exact hcap
    · exact ht1
  have h2' : (if cap < t1 then cap else t1) ≤ cap := by
    split
    · exact le_rfl
    · next h => exact le_of_not_lt h
  simp only [decide_eq_true_eq]
  by_cases hd : nq ≤ (if cap < t1 then cap else t1)
  · rw [if_pos hd]
    constructor
    · linarith
    · linarith
  · rw [if_neg hd]
    exact ⟨h2, h2'⟩

/-- C5 (amended): `0 ≤ remaining ≤ limit` for every decide of the three
algorithms, provided the configured limit is nonnegative, the window is
positive, and — for the token bucket — the stored state is well formed
(`tokens ≥ 0`), the clock has not moved backwards past `last_refill`
(`last_refill ≤ now`), and the cost is nonnegative.  The original
unconditional claim fails on the bucket (see the counterexample). -/
theorem claimC5_remaining_bounds (cfg : Config) (ms : MemoryStore) (now : ℚ)
    (key : String) (n : ℤ)
    (hlim : 0 ≤ cfg.Limit) (hwin : 0 < cfg.Window)
    (hcap : 0 ≤ (NewTokenBucket cfg).capacity)
    (htok : 0 ≤ (ms.tokens key).1) (hskew : (ms.tokens key).2 ≤ now) (hn : 0 ≤ n) :
    (0 ≤ (infoOf ((NewFixedWindowCounter cfg).AllowN ms now key n)).Remaining ∧
      (infoOf ((NewFixedWindowCounter cfg).AllowN ms now key n)).Remaining ≤
        (infoOf ((NewFixedWindowCounter cfg).AllowN ms now key n)).Limit) ∧
    (0 ≤ (infoOf ((NewSlidingWindowCounter cfg).AllowN ms now key n)).Remaining ∧
      (infoOf ((NewSlidingWindowCounter cfg).AllowN ms now key n)).Remaining ≤
        (infoOf ((NewSlidingWindowCounter cfg).AllowN ms now key n)).Limit) ∧
    (0 ≤ (infoOf ((NewTokenBucket cfg).AllowN ms now key n)).Remaining ∧
      (infoOf ((NewTokenBucket cfg).AllowN ms now key n)).Remaining ≤
        (infoOf ((NewTokenBucket cfg).AllowN ms now key n)).Limit) := by
  have hwF : 0 < (NewFixedWindowCounter cfg).window := hwin
  have hwS : 0 < (NewSlidingWindowCounter cfg).window := hwin
  have hlimF : 0 ≤ (NewFixedWindowCounter cfg).limit := hlim
  have hlimS : 0 ≤ (NewSlidingWindowCounter cfg).limit := hlim
  have hrate : 0 ≤ (NewTokenBucket cfg).refillRate := by
    have h : (NewTokenBucket cfg).refillRate = (cfg.Limit : ℚ) / cfg.Window := rfl
    rw [h]
    exact div_nonneg (by exact_mod_cast hlim) hwin.le
  refine ⟨?_, ?_, ?_⟩
  · rw [fixedWindow_allowN_eq _ _ _ _ _ hwF]
    dsimp only [infoOf]
    have hc1 : (0 : ℤ) ≤ (if decide
        ((ms.counters key (timeTruncate now (NewFixedWindowCounter cfg).window) : ℤ) + n ≤
          (NewFixedWindowCounter cfg).limit) = true
        then (ms.counters key (timeTruncate now (NewFixedWindowCounter cfg).window) : ℤ) + 1
        else (ms.counters key (timeTruncate now (NewFixedWindowCounter cfg).window) : ℤ)) := by
      split <;> omega
    exact int_clamp_bounds _ _ hlimF hc1
  · rw [slidingWindow_allowN_eq _ _ _ _ _ hwS]
    dsimp only [infoOf]
    have hwt : 0 ≤ 1 - (now - timeTruncate now (NewSlidingWindowCounter cfg).window) /
        (NewSlidingWindowCounter cfg).window := slidingWeight_nonneg now hwS
    exact goTrunc_clamp_bounds _ _ hlimS
      (ite_weighted_nonneg (Nat.cast_nonneg _) (Nat.cast_nonneg _) hwt)
  · rw [tokenBucket_allowN_eq]
    dsimp only [infoOf]
    have hcapQ : (0 : ℚ) ≤ ((NewTokenBucket cfg).capacity : ℚ) := by exact_mod_cast hcap
    have h1 : 0 ≤ (ms.tokens key).1 + (now - (ms.tokens key).2) *
        (NewTokenBucket cfg).refillRate :=
      add_nonneg htok (mul_nonneg (by linarith) hrate)
    have hnq : (0 : ℚ) ≤ (n : ℚ) := by exact_mod_cast hn
    have hb := ite_consume_bounds hcapQ h1 hnq
    exact ⟨goTrunc_nonneg hb.1, goTrunc_le_intCast hb.2 hcap⟩

/-- C6: after a `Reset(key)` (the store `Delete`, which always succeeds),
the next decide of any of the three algorithms on that key returns the same
outcome and `LimitInfo` as on a store that has never seen any key. -/
theorem claimC6_reset_cold (fwc : FixedWindowCounter) (swc : SlidingWindowCounter)
    (tb : TokenBucket) (ms : MemoryStore) (now : ℚ) (key : String) (n : ℤ)
    (hwf : 0 < fwc.window) (hws : 0 < swc.window) :
    (allowedOf (fwc.AllowN (resetStore (fwc.Reset ms key) ms) now key n) =
        allowedOf (fwc.AllowN MemoryStore.empty now key n) ∧
      infoOf (fwc.AllowN (resetStore (fwc.Reset ms key) ms) now key n) =
        infoOf (fwc.AllowN MemoryStore.empty now key n)) ∧
    (allowedOf (swc.AllowN (resetStore (swc.Reset ms key) ms) now key n) =
        allowedOf (swc.AllowN MemoryStore.empty now key n) ∧
      infoOf (swc.AllowN (resetStore (swc.Reset ms key) ms) now key n) =
        infoOf (swc.AllowN MemoryStore.empty now key n)) ∧
    (allowedOf (tb.AllowN (resetStore (tb.Reset ms key) ms) now key n) =
        allowedOf (tb.AllowN MemoryStore.empty now key n) ∧
      infoOf (tb.AllowN (resetStore (tb.Reset ms key) ms) now key n) =
        infoOf (tb.AllowN MemoryStore.empty now key n)) := by
  have hcf : (resetStore (fwc.Reset ms key) ms).counters key =
      MemoryStore.empty.counters key := by
    funext w
    simp [resetStore, FixedWindowCounter.Reset, MemoryStore.Delete, MemoryStore.empty]
  have hcs : (resetStore (swc.Reset ms key) ms).counters key =
      MemoryStore.empty.counters key := by
    funext w
    simp [resetStore, SlidingWindowCounter.Reset, MemoryStore.Delete, MemoryStore.empty]
  have htb : (resetStore (tb.Reset ms key) ms).tokens key =
      MemoryStore.empty.tokens key := by
    simp [resetStore, TokenBucket.Reset, MemoryStore.Delete, MemoryStore.empty]
  exact ⟨fixedWindow_allowN_congr fwc now key n hwf hcf,
    slidingWindow_allowN_congr swc now key n hws hcs,
    tokenBucket_allowN_congr tb now key n htb⟩

/-- C6 witness: the reset-is-cold property at a concrete instance. -/
theorem claimC6_reset_cold_witness :
    ((0 : ℚ) < 1) ∧
    ((allowedOf ((⟨10, 1⟩ : FixedWindowCounter).AllowN
        (resetStore ((⟨10, 1⟩ : FixedWindowCounter).Reset MemoryStore.empty "k")
          MemoryStore.empty) 0 "k" 1) =
        allowedOf ((⟨10, 1⟩ : FixedWindowCounter).AllowN MemoryStore.empty 0 "k" 1) ∧
      infoOf ((⟨10, 1⟩ : FixedWindowCounter).AllowN
        (resetStore ((⟨10, 1⟩ : FixedWindowCounter).Reset MemoryStore.empty "k")
          MemoryStore.empty) 0 "k" 1) =
        infoOf ((⟨10, 1⟩ : FixedWindowCounter).AllowN MemoryStore.empty 0 "k" 1)) ∧
    (allowedOf ((⟨10, 1⟩ : SlidingWindowCounter).AllowN
        (resetStore ((⟨10, 1⟩ : SlidingWindowCounter).Reset MemoryStore.empty "k")
          MemoryStore.empty) 0 "k" 1) =
        allowedOf ((⟨10, 1⟩ : SlidingWindowCounter).AllowN MemoryStore.empty 0 "k" 1) ∧
      infoOf ((⟨10, 1⟩ : SlidingWindowCounter).AllowN
        (resetStore ((⟨10, 1⟩ : SlidingWindowCounter).Reset MemoryStore.empty "k")
          MemoryStore.empty) 0 "k" 1) =
        infoOf ((⟨10, 1⟩ : SlidingWindowCounter).AllowN MemoryStore.empty 0 "k" 1)) ∧
    (allowedOf ((⟨10, 10, 1⟩ : TokenBucket).AllowN
        (resetStore ((⟨10, 10, 1⟩ : TokenBucket).Reset MemoryStore.empty "k")
          MemoryStore.empty) 0 "k" 1) =
        allowedOf ((⟨10, 10, 1⟩ : TokenBucket).AllowN MemoryStore.empty 0 "k" 1) ∧
      infoOf ((⟨10, 10, 1⟩ : TokenBucket).AllowN
        (resetStore ((⟨10, 10, 1⟩ : TokenBucket).Reset MemoryStore.empty "k")
          MemoryStore.empty) 0 "k" 1) =
        infoOf ((⟨10, 10, 1⟩ : TokenBucket).AllowN MemoryStore.empty 0 "k" 1))) :=
  ⟨by norm_num,
   claimC6_reset_cold ⟨10, 1⟩ ⟨10, 1⟩ ⟨10, 10, 1⟩ MemoryStore.empty 0 "k" 1
     (by norm_num) (by norm_num)⟩

/-- C8 (amended): the algorithm *families* are isolated — window decides
(fixed and sliding) never touch the token-state family, bucket decides
never touch the window-counter family, and hence a decide through one
family never changes the outcome of a later decide through the other
family, for any keys.  (Fixed and sliding window do share the
window-counter state of a key — see the counterexample — so the original
per-algorithm claim fails.) -/
theorem claimC8_family_isolation (fwc : FixedWindowCounter)
    (swc : SlidingWindowCounter) (tb : TokenBucket) (ms : MemoryStore)
    (now now2 : ℚ) (key key2 : String) (n n2 : ℤ)
    (hwf : 0 < fwc.window) (hws : 0 < swc.window) :
    (storeAfter (fwc.AllowN ms now key n) ms).tokens = ms.tokens ∧
    (storeAfter (swc.AllowN ms now key n) ms).tokens = ms.tokens ∧
    (storeAfter (tb.AllowN ms now key n) ms).counters = ms.counters ∧
    (allowedOf (tb.AllowN (storeAfter (fwc.AllowN ms now key n) ms) now2 key2 n2) =
        allowedOf (tb.AllowN ms now2 key2 n2) ∧
      infoOf (tb.AllowN (storeAfter (fwc.AllowN ms now key n) ms) now2 key2 n2) =
        infoOf (tb.AllowN ms now2 key2 n2)) ∧
    (allowedOf (tb.AllowN (storeAfter (swc.AllowN ms now key n) ms) now2 key2 n2) =
        allowedOf (tb.AllowN ms now2 key2 n2) ∧
      infoOf (tb.AllowN (storeAfter (swc.AllowN ms now key n) ms) now2 key2 n2) =
        infoOf (tb.AllowN ms now2 key2 n2)) ∧
    (allowedOf (fwc.AllowN (storeAfter (tb.AllowN ms now key n) ms) now2 key2 n2) =
        allowedOf (fwc.AllowN ms now2 key2 n2) ∧
      infoOf (fwc.AllowN (storeAfter (tb.AllowN ms now key n) ms) now2 key2 n2) =
        infoOf (fwc.AllowN ms now2 key2 n2)) ∧
    (allowedOf (swc.AllowN (storeAfter (tb.AllowN ms now key n) ms) now2 key2 n2) =
        allowedOf (swc.AllowN ms now2 key2 n2) ∧
      infoOf (swc.AllowN (storeAfter (tb.AllowN ms now key n) ms) now2 key2 n2) =
        infoOf (swc.AllowN ms now2 key2 n2)) := by
  have hfT := fixedWindow_allowN_tokens fwc ms now key n hwf
  have hsT := slidingWindow_allowN_tokens swc ms now key n hws
  have hbC := tokenBucket_allowN_counters tb ms now key n
  refine ⟨hfT, hsT, hbC, ?_, ?_, ?_, ?_⟩
  · exact tokenBucket_allowN_congr tb now2 key2 n2 (by rw [hfT])
  · exact tokenBucket_allowN_congr tb now2 key2 n2 (by rw [hsT])
  · exact fixedWindow_allowN_congr fwc now2 key2 n2 hwf (by rw [hbC])
  · exact slidingWindow_allowN_congr swc now2 key2 n2 hws (by rw [hbC])

/-- C8 witness: family isolation at a concrete instance. -/
theorem claimC8_family_isolation_witness :
    ((0 : ℚ) < 1) ∧
    ((storeAfter ((⟨10, 1⟩ : FixedWindowCounter).AllowN MemoryStore.empty 0 "k" 1)
        MemoryStore.empty).tokens = MemoryStore.empty.tokens ∧
    (storeAfter ((⟨10, 1⟩ : SlidingWindowCounter).AllowN MemoryStore.empty 0 "k" 1)
        MemoryStore.empty).tokens = MemoryStore.empty.tokens ∧
    (storeAfter ((⟨10, 10, 1⟩ : TokenBucket).AllowN MemoryStore.empty 0 "k" 1)
        MemoryStore.empty).counters = MemoryStore.empty.counters ∧
    (allowedOf ((⟨10, 10, 1⟩ : TokenBucket).AllowN
        (storeAfter ((⟨10, 1⟩ : FixedWindowCounter).AllowN MemoryStore.empty 0 "k" 1)
          MemoryStore.empty) 0 "k" 1) =
        allowedOf ((⟨10, 10, 1⟩ : TokenBucket).AllowN MemoryStore.empty 0 "k" 1) ∧
      infoOf ((⟨10, 10, 1⟩ : TokenBucket).AllowN
        (storeAfter ((⟨10, 1⟩ : FixedWindowCounter).AllowN MemoryStore.empty 0 "k" 1)
          MemoryStore.empty) 0 "k" 1) =
        infoOf ((⟨10, 10, 1⟩ : TokenBucket).AllowN MemoryStore.empty 0 "k" 1)) ∧
    (allowedOf ((⟨10, 10, 1⟩ : TokenBucket).AllowN
        (storeAfter ((⟨10, 1⟩ : SlidingWindowCounter).AllowN MemoryStore.empty 0 "k" 1)
          MemoryStore.empty) 0 "k" 1) =
        allowedOf ((⟨10, 10, 1⟩ : TokenBucket).AllowN MemoryStore.empty 0 "k" 1) ∧
      infoOf ((⟨10, 10, 1⟩ : TokenBucket).AllowN
        (storeAfter ((⟨10, 1⟩ : SlidingWindowCounter).AllowN MemoryStore.empty 0 "k" 1)
          MemoryStore.empty) 0 "k" 1) =
        infoOf ((⟨10, 10, 1⟩ : TokenBucket).AllowN MemoryStore.empty 0 "k" 1)) ∧
    (allowedOf ((⟨10, 1⟩ : FixedWindowCounter).AllowN
        (storeAfter ((⟨10, 10, 1⟩ : TokenBucket).AllowN MemoryStore.empty 0 "k" 1)
          MemoryStore.empty) 0 "k" 1) =
        allowedOf ((⟨10, 1⟩ : FixedWindowCounter).AllowN MemoryStore.empty 0 "k" 1) ∧
      infoOf ((⟨10, 1⟩ : FixedWindowCounter).AllowN
        (storeAfter ((⟨10, 10, 1⟩ : TokenBucket).AllowN MemoryStore.empty 0 "k" 1)
          MemoryStore.empty) 0 "k" 1) =
        infoOf ((⟨10, 1⟩ : FixedWindowCounter).AllowN MemoryStore.empty 0 "k" 1)) ∧
    (allowedOf ((⟨10, 1⟩ : SlidingWindowCounter).AllowN
        (storeAfter ((⟨10, 10, 1⟩ : TokenBucket).AllowN MemoryStore.empty 0 "k" 1)
          MemoryStore.empty) 0 "k" 1) =
        allowedOf ((⟨10, 1⟩ : SlidingWindowCounter).AllowN MemoryStore.empty 0 "k" 1) ∧
      infoOf ((⟨10, 1⟩ : SlidingWindowCounter).AllowN
        (storeAfter ((⟨10, 10, 1⟩ : TokenBucket).AllowN MemoryStore.empty 0 "k" 1)
          MemoryStore.empty) 0 "k" 1) =
        infoOf ((⟨10, 1⟩ : SlidingWindowCounter).AllowN MemoryStore.empty 0 "k" 1))) :=
  ⟨by norm_num,
   claimC8_family_isolation ⟨10, 1⟩ ⟨10, 1⟩ ⟨10, 10, 1⟩ MemoryStore.empty 0 0 "k" "k" 1 1
     (by norm_num) (by norm_num)⟩

theorem ite_ok_eq {e a : Type} (c : Prop) [Decidable c] (x y : a) :
    (if c then (Except.ok x : Except e a) else Except.ok y) =
      Except.ok (if c then x else y) := by
  split <;> rfl

/-- C10: every memory-store operation succeeds (`nil` error) on every
input; the bucket state of an absent key reads as the zero-valued pair; and
consequently none of the three algorithms' decides can ever return an
error — the store-error branches (including the bucket's `(capacity, now)`
initialization) are unreachable over this store. -/
theorem claimC10_store_total_ok :
    (∀ (ms : MemoryStore) (key : String) (w : ℚ),
      ∃ r, ms.Increment key w = Except.ok r) ∧
    (∀ (ms : MemoryStore) (key : String) (f t : ℚ),
      ∃ r, ms.GetWindows key f t = Except.ok r) ∧
    (∀ (ms : MemoryStore) (key : String) (tok lr : ℚ),
      ∃ r, ms.SetTokens key tok lr = Except.ok r) ∧
    (∀ (ms : MemoryStore) (key : String),
      ms.GetTokens key = Except.ok (ms.tokens key)) ∧
    (∀ (ms : MemoryStore) (key : String), ∃ r, ms.Delete key = Except.ok r) ∧
    (∀ ms : MemoryStore, ms.Close = Except.ok ()) ∧
    (∀ key : String, MemoryStore.empty.GetTokens key = Except.ok (0, 0)) ∧
    (∀ (tb : TokenBucket) (ms : MemoryStore) (now : ℚ) (key : String) (n : ℤ),
      ∃ r, tb.AllowN ms now key n = Except.ok r) ∧
    (∀ (fwc : FixedWindowCounter) (ms : MemoryStore) (now : ℚ) (key : String) (n : ℤ),
      ∃ r, fwc.AllowN ms now key n = Except.ok r) ∧
    (∀ (swc : SlidingWindowCounter) (ms : MemoryStore) (now : ℚ) (key : String) (n : ℤ),
      ∃ r, swc.AllowN ms now key n = Except.ok r) := by
  refine ⟨fun ms key w => ⟨_, rfl⟩, fun ms key f t => ⟨_, rfl⟩,
    fun ms key tok lr => ⟨_, rfl⟩, fun ms key => rfl, fun ms key => ⟨_, rfl⟩,
    fun ms => rfl, fun key => rfl,
    fun tb ms now key n => ⟨_, tokenBucket_allowN_eq tb ms now key n⟩, ?_, ?_⟩
  · intro fwc ms now key n
    unfold FixedWindowCounter.AllowN MemoryStore.GetWindows MemoryStore.Increment
    dsimp only
    exact ⟨_, ite_ok_eq _ _ _⟩
  · intro swc ms now key n
    unfold SlidingWindowCounter.AllowN MemoryStore.GetWindows MemoryStore.Increment
    dsimp only
    exact ⟨_, ite_ok_eq _ _ _⟩

/-- C5 witness: the amended remaining-bounds property at a concrete
instance. -/
theorem claimC5_remaining_bounds_witness :
    ((0 : ℤ) ≤ 10) ∧ ((0 : ℚ) < 1) ∧
    (0 ≤ (NewTokenBucket { Limit := 10, Window := 1, Burst := 10 }).capacity) ∧
    (0 ≤ (MemoryStore.empty.tokens "k").1) ∧
    ((MemoryStore.empty.tokens "k").2 ≤ (0 : ℚ)) ∧ ((0 : ℤ) ≤ 1) ∧
    ((0 ≤ (infoOf ((NewFixedWindowCounter { Limit := 10, Window := 1, Burst := 10 }).AllowN
        MemoryStore.empty 0 "k" 1)).Remaining ∧
      (infoOf ((NewFixedWindowCounter { Limit := 10, Window := 1, Burst := 10 }).AllowN
        MemoryStore.empty 0 "k" 1)).Remaining ≤
        (infoOf ((NewFixedWindowCounter { Limit := 10, Window := 1, Burst := 10 }).AllowN
          MemoryStore.empty 0 "k" 1)).Limit) ∧
    (0 ≤ (infoOf ((NewSlidingWindowCounter { Limit := 10, Window := 1, Burst := 10 }).AllowN
        MemoryStore.empty 0 "k" 1)).Remaining ∧
      (infoOf ((NewSlidingWindowCounter { Limit := 10, Window := 1, Burst := 10 }).AllowN
        MemoryStore.empty 0 "k" 1)).Remaining ≤
        (infoOf ((NewSlidingWindowCounter { Limit := 10, Window := 1, Burst := 10 }).AllowN
          MemoryStore.empty 0 "k" 1)).Limit) ∧
    (0 ≤ (infoOf ((NewTokenBucket { Limit := 10, Window := 1, Burst := 10 }).AllowN
        MemoryStore.empty 0 "k" 1)).Remaining ∧
      (infoOf ((NewTokenBucket { Limit := 10, Window := 1, Burst := 10 }).AllowN
        MemoryStore.empty 0 "k" 1)).Remaining ≤
        (infoOf ((NewTokenBucket { Limit := 10, Window := 1, Burst := 10 }).AllowN
          MemoryStore.empty 0 "k" 1)).Limit)) :=
  ⟨by norm_num, by norm_num, by norm_num [NewTokenBucket],
   by norm_num [MemoryStore.empty], by norm_num [MemoryStore.empty], by norm_num,
   claimC5_remaining_bounds { Limit := 10, Window := 1, Burst := 10 }
     MemoryStore.empty 0 "k" 1 (by norm_num) (by norm_num)
     (by norm_num [NewTokenBucket]) (by norm_num [MemoryStore.empty])
     (by norm_num [MemoryStore.empty]) (by norm_num)⟩

/-- C1: the claim states that when `c + n ≤ limit` holds, `AllowN(key, n)`
allows and leaves the stored current-window count at `c + n`.  The allow
part holds, but memory.go `Increment` adds `1` regardless of `n`: with
`limit = 10`, a cold key and `n = 2`, the call allows yet stores count `1`,
not `0 + 2`. -/
theorem claimC1_fixedWindow_increment_eval :
    allowedOf ((NewFixedWindowCounter { Limit := 10, Window := 1, Burst := 0 }).AllowN
      MemoryStore.empty 0 "k" 2) = true ∧
    (storeAfter ((NewFixedWindowCounter { Limit := 10, Window := 1, Burst := 0 }).AllowN
      MemoryStore.empty 0 "k" 2) MemoryStore.empty).counters "k" 0 = 1 ∧
    (storeAfter ((NewFixedWindowCounter { Limit := 10, Window := 1, Burst := 0 }).AllowN
      MemoryStore.empty 0 "k" 2) MemoryStore.empty).counters "k" 0 ≠ 0 + 2 := by
  norm_num [FixedWindowCounter.AllowN, MemoryStore.GetWindows, MemoryStore.Increment,
    NewFixedWindowCounter, MemoryStore.empty, allowedOf, storeAfter, timeTruncate]

/-- C2: the claim states the elapsed time is clamped at zero under negative
clock skew and the written-back token count lies in `[0, capacity]`.
`TokenBucket.AllowN` has no clamp: with rate 10 tok/s, stored state
`(tokens = 0, last_refill = 10)` and a clock reading `now = 5`, it computes
`elapsed = -5` and writes back `tokens = -50 < 0`. -/
theorem claimC2_tokenBucket_negative_skew_eval :
    ((storeAfter ((NewTokenBucket { Limit := 10, Window := 1, Burst := 10 }).AllowN
        { counters := fun _ _ => 0,
          tokens := fun k => if k = "k" then ((0 : ℚ), (10 : ℚ)) else (0, 0) }
        5 "k" 1)
      { counters := fun _ _ => 0,
        tokens := fun k => if k = "k" then ((0 : ℚ), (10 : ℚ)) else (0, 0) }).tokens
      "k").1 = -50 ∧ ((-50 : ℚ) < 0) := by
  norm_num [TokenBucket.AllowN, MemoryStore.GetTokens, MemoryStore.SetTokens,
    NewTokenBucket, storeAfter]

/-- C7: the claim states an `AllowN(key, 0)` probe writes nothing for the
window algorithms.  In the code `c + 0 ≤ limit` holds on a cold key, so the
probe takes the allowed branch and increments: both window algorithms leave
the stored current-window count at `1` after a single `n = 0` probe. -/
theorem claimC7_status_probe_eval :
    (storeAfter ((NewFixedWindowCounter { Limit := 10, Window := 1, Burst := 0 }).AllowN
      MemoryStore.empty 0 "k" 0) MemoryStore.empty).counters "k" 0 = 1 ∧
    (storeAfter ((NewSlidingWindowCounter { Limit := 10, Window := 1, Burst := 0 }).AllowN
      MemoryStore.empty 0 "k" 0) MemoryStore.empty).counters "k" 0 = 1 ∧
    MemoryStore.empty.counters "k" 0 = 0 := by
  norm_num [FixedWindowCounter.AllowN, SlidingWindowCounter.AllowN,
    MemoryStore.GetWindows, MemoryStore.Increment, NewFixedWindowCounter,
    NewSlidingWindowCounter, MemoryStore.empty, storeAfter, timeTruncate]

/-- C9: the claim states a negative `count` yields HTTP 400 without
invoking any decide.  The handler only defaults `count = 0` to `1` and has
no negativity check: a request with `count = -1` reaches the fixed-window
decide (which increments the counter of `u:r`) and returns 200. -/
theorem claimC9_negative_count_eval :
    (RateLimitHandler.Check { Limit := 10, Window := 1, Burst := 0 } "fixed_window"
      MemoryStore.empty 0
      { Resource := "r", Identifier := "u", Algorithm := "", Count := -1 }).1 = 200 ∧
    (RateLimitHandler.Check { Limit := 10, Window := 1, Burst := 0 } "fixed_window"
      MemoryStore.empty 0
      { Resource := "r", Identifier := "u", Algorithm := "", Count := -1 }).2.counters
      "u:r" 0 = 1 := by
  norm_num [RateLimitHandler.Check, FixedWindowCounter.AllowN, MemoryStore.GetWindows,
    MemoryStore.Increment, NewFixedWindowCounter, MemoryStore.empty, timeTruncate]
  decide

/-- C5 counterexample: `remaining` can be negative.  Same negative-skew
input as C2: the bucket decide returns `Remaining = -50`, violating
`0 ≤ remaining`. -/
theorem claimC5_remaining_negative_cex :
    (infoOf ((NewTokenBucket { Limit := 10, Window := 1, Burst := 10 }).AllowN
        { counters := fun _ _ => 0,
          tokens := fun k => if k = "k" then ((0 : ℚ), (10 : ℚ)) else (0, 0) }
        5 "k" 1)).Remaining = -50 ∧
    ¬ (0 ≤ (infoOf ((NewTokenBucket { Limit := 10, Window := 1, Burst := 10 }).AllowN
        { counters := fun _ _ => 0,
          tokens := fun k => if k = "k" then ((0 : ℚ), (10 : ℚ)) else (0, 0) }
        5 "k" 1)).Remaining) := by
  norm_num [TokenBucket.AllowN, MemoryStore.GetTokens, MemoryStore.SetTokens,
    NewTokenBucket, infoOf, goTrunc]
  have hceil : (⌈(-50 : ℚ)⌉ : ℤ) = -50 := by
    rw [show ((-50 : ℚ)) = -(50 : ℚ) from by norm_num, Int.ceil_neg]
    norm_num
  rw [hceil]
  norm_num

/-- C8 counterexample: fixed and sliding window share the window counters
of a key.  With limit 1, one fixed-window allow on key `k` makes the next
sliding-window decide on `k` deny, though a cold sliding-window decide at
the same instant allows. -/
theorem claimC8_contamination_cex :
    allowedOf ((NewFixedWindowCounter { Limit := 1, Window := 1, Burst := 0 }).AllowN
      MemoryStore.empty (1/2) "k" 1) = true ∧
    allowedOf ((NewSlidingWindowCounter { Limit := 1, Window := 1, Burst := 0 }).AllowN
      MemoryStore.empty (1/2) "k" 1) = true ∧
    allowedOf ((NewSlidingWindowCounter { Limit := 1, Window := 1, Burst := 0 }).AllowN
      (storeAfter ((NewFixedWindowCounter { Limit := 1, Window := 1, Burst := 0 }).AllowN
        MemoryStore.empty (1/2) "k" 1) MemoryStore.empty) (1/2) "k" 1) = false := by
  norm_num [FixedWindowCounter.AllowN, SlidingWindowCounter.AllowN,
    MemoryStore.GetWindows, MemoryStore.Increment, NewFixedWindowCounter,
    NewSlidingWindowCounter, MemoryStore.empty, storeAfter, allowedOf, timeTruncate]

/-- C3: the claim states a denied bucket decide returns
`retry_after = (n − tokens″)/rate`, ≈ 100 ms in the seed scenario
(limit 10, window 1 s, burst 10: rate 10 tok/s, 11th unit decide after 10
allows from cold).  The code converts the fractional seconds through
`time.Duration(...) * time.Second`, truncating `0.1` s to `0`: the 10th
decide allows with `remaining = 0`, the 11th is denied with
`retry_after = 0`, not `1/10` s. -/
theorem claimC3_tokenBucket_retryAfter_eval :
    allowedOf ((NewTokenBucket { Limit := 10, Window := 1, Burst := 10 }).AllowN
      (runBucket (NewTokenBucket { Limit := 10, Window := 1, Burst := 10 }) 1000 "k" 9
        MemoryStore.empty) 1000 "k" 1) = true ∧
    (infoOf ((NewTokenBucket { Limit := 10, Window := 1, Burst := 10 }).AllowN
      (runBucket (NewTokenBucket { Limit := 10, Window := 1, Burst := 10 }) 1000 "k" 9
        MemoryStore.empty) 1000 "k" 1)).Remaining = 0 ∧
    (runBucket (NewTokenBucket { Limit := 10, Window := 1, Burst := 10 }) 1000 "k" 10
      MemoryStore.empty).tokens "k" = ((0 : ℚ), (1000 : ℚ)) ∧
    allowedOf ((NewTokenBucket { Limit := 10, Window := 1, Burst := 10 }).AllowN
      (runBucket (NewTokenBucket { Limit := 10, Window := 1, Burst := 10 }) 1000 "k" 10
        MemoryStore.empty) 1000 "k" 1) = false ∧
    (infoOf ((NewTokenBucket { Limit := 10, Window := 1, Burst := 10 }).AllowN
      (runBucket (NewTokenBucket { Limit := 10, Window := 1, Burst := 10 }) 1000 "k" 10
        MemoryStore.empty) 1000 "k" 1)).RetryAfter = some 0 := by
  have hcap : 1 ≤ (NewTokenBucket { Limit := 10, Window := 1, Burst := 10 }).capacity := by
    norm_num [NewTokenBucket]
  have hfill : ((NewTokenBucket { Limit := 10, Window := 1, Burst := 10 }).capacity : ℚ) ≤
      1000 * (NewTokenBucket { Limit := 10, Window := 1, Burst := 10 }).refillRate := by
    norm_num [NewTokenBucket]
  have h9 := runBucket_tokens (NewTokenBucket { Limit := 10, Window := 1, Burst := 10 })
    1000 "k" hcap hfill 9 (by norm_num [NewTokenBucket])
  have h10 := runBucket_tokens (NewTokenBucket { Limit := 10, Window := 1, Burst := 10 })
    1000 "k" hcap hfill 10 (by norm_num [NewTokenBucket])
  have h9' : (runBucket (NewTokenBucket { Limit := 10, Window := 1, Burst := 10 })
      1000 "k" 9 MemoryStore.empty).tokens "k" = ((1 : ℚ), (1000 : ℚ)) := by
    rw [h9]
    norm_num [NewTokenBucket]
  have h10' : (runBucket (NewTokenBucket { Limit := 10, Window := 1, Burst := 10 })
      1000 "k" 10 MemoryStore.empty).tokens "k" = ((0 : ℚ), (1000 : ℚ)) := by
    rw [h10]
    norm_num [NewTokenBucket]
  refine ⟨?_, ?_, h10', ?_, ?_⟩
  · rw [tokenBucket_allowN_eq]
    dsimp only [allowedOf]
    rw [h9']
    norm_num [NewTokenBucket]
  · rw [tokenBucket_allowN_eq]
    dsimp only [infoOf]
    rw [h9']
    norm_num [NewTokenBucket, goTrunc]
  · rw [tokenBucket_allowN_eq]
    dsimp only [allowedOf]
    rw [h10']
    norm_num [NewTokenBucket]
  · rw [tokenBucket_allowN_eq]
    dsimp only [infoOf]
    rw [h10']
    norm_num [NewTokenBucket, goTrunc]

/-- C4 counterexample: the cold-budget claim fails as stated for the token
bucket.  With `{limit = 1, window = 9·10⁹ s, burst = 2}` (rate
`1/(9·10⁹)` tok/s) and a clock reading `now = 9.4·10⁹ s`, the cold bucket
refills to only `47/45 < 2 = capacity` tokens (the absent key reads as
`(0, zero instant)`, not the spec's `(capacity, now)`): the first unit
decide allows but the second of the `capacity = 2` required allows is
denied. -/
theorem claimC4_cold_bucket_cex :
    (NewTokenBucket { Limit := 1, Window := 9000000000, Burst := 2 }).capacity = 2 ∧
    allowedOf ((NewTokenBucket { Limit := 1, Window := 9000000000, Burst := 2 }).AllowN
      MemoryStore.empty 9400000000 "k" 1) = true ∧
    allowedOf ((NewTokenBucket { Limit := 1, Window := 9000000000, Burst := 2 }).AllowN
      (storeAfter ((NewTokenBucket { Limit := 1, Window := 9000000000, Burst := 2 }).AllowN
        MemoryStore.empty 9400000000 "k" 1) MemoryStore.empty) 9400000000 "k" 1) = false := by
  norm_num [TokenBucket.AllowN, MemoryStore.GetTokens, MemoryStore.SetTokens,
    NewTokenBucket, storeAfter, allowedOf, MemoryStore.empty]
